import Mathlib

/-!
Verification of the echo-garden audio/emotion/L-system core.

The numeric type of the embedding is `ℚ`.  The JavaScript transcendental
primitives (`Math.sin`, `Math.cos`, `Math.PI`) are abstracted into an
environment `LEnv`: every theorem below quantifies over the environment, so
it holds in particular for the real trigonometric functions the browser
uses.  All other arithmetic of the source is translated literally.
-/

namespace EchoGarden

set_option maxRecDepth 8000

/-- Abstract numeric environment: the transcendental primitives used by the
source (`Math.sin`, `Math.cos`, `Math.PI`). -/
structure LEnv where
  sin : ℚ → ℚ
  cos : ℚ → ℚ
  pi : ℚ

/-- THREE.Vector3 restricted to the fields the interpreter touches. -/
structure Vec3 where
  x : ℚ
  y : ℚ
  z : ℚ
deriving DecidableEq

def Vec3.add (a b : Vec3) : Vec3 := ⟨a.x + b.x, a.y + b.y, a.z + b.z⟩

def Vec3.smul (c : ℚ) (v : Vec3) : Vec3 := ⟨c * v.x, c * v.y, c * v.z⟩

def Vec3.cross (a b : Vec3) : Vec3 :=
  ⟨a.y * b.z - a.z * b.y, a.z * b.x - a.x * b.z, a.x * b.y - a.y * b.x⟩

/-- THREE.Vector3.applyAxisAngle: builds the quaternion
(axis * sin(angle/2), cos(angle/2)) and applies it
(v + w*t + q x t with t = 2 (q x v)). -/
def applyAxisAngle (env : LEnv) (v axis : Vec3) (angle : ℚ) : Vec3 :=
  let s := env.sin (angle / 2)
  let qv := Vec3.smul s axis
  let qw := env.cos (angle / 2)
  let t := Vec3.smul 2 (Vec3.cross qv v)
  Vec3.add (Vec3.add v (Vec3.smul qw t)) (Vec3.cross qv t)

/-- THREE.MathUtils.degToRad. -/
def degToRad (env : LEnv) (d : ℚ) : ℚ := d * env.pi / 180

/-- One step of the closure returned by seededRandom in lsystem.ts:
s := Math.sin(s * 9999) * 10000; return s - Math.floor(s).
Returns (output, new state). -/
def seededRandomStep (env : LEnv) (s : ℚ) : ℚ × ℚ :=
  let s2 := env.sin (s * 9999) * 10000
  (s2 - (Int.floor s2 : ℚ), s2)

/-- LSystemRule from lsystem.ts (symbols in the presets are single
characters, and rule matching compares a rule symbol with one character). -/
structure LSystemRule where
  symbol : Char
  replacement : List Char
  probability : Option ℚ := none
deriving DecidableEq

/-- LSystemConfig from lsystem.ts; `axm` is the source's axiom string. -/
structure LSystemConfig where
  axm : List Char
  rules : List LSystemRule
  angle : ℚ
  length : ℚ
  lengthFactor : ℚ
  widthFactor : ℚ
  iterations : ℕ
  randomness : ℚ
deriving DecidableEq

/-- TREE_PRESETS.oak. -/
def oakConfig : LSystemConfig :=
  { axm := "F".toList
    rules := [{ symbol := 'F', replacement := "FF+[+F-F-F]-[-F+F+F]".toList, probability := some 1 }]
    angle := 45/2
    length := 2
    lengthFactor := 7/10
    widthFactor := 7/10
    iterations := 2
    randomness := 1/10 }

/-- Effective probability of a rule: `rule.probability || 1 / matchingRules.length`
(JavaScript ||, so an absent or zero probability falls back to 1/len). -/
def ruleProb (len : ℕ) (r : LSystemRule) : ℚ :=
  match r.probability with
  | some p => if p = 0 then 1 / (len : ℚ) else p
  | none => 1 / (len : ℚ)

/-- The cumulative-probability selection loop of generateLSystem (first rule
whose cumulative probability exceeds the roll; none if the loop never breaks). -/
def selectRule (roll : ℚ) (len : ℕ) : ℚ → List LSystemRule → Option LSystemRule
  | _, [] => none
  | cum, r :: rs =>
      let cum2 := cum + ruleProb len r
      if roll < cum2 then some r else selectRule roll len cum2 rs

/-- Body of the inner character loop of generateLSystem: rewrite one
character, threading the accumulated output and the RNG state. -/
def rewriteChar (env : LEnv) (rules : List LSystemRule) (st : List Char × ℚ) (c : Char) :
    List Char × ℚ :=
  let matching := rules.filter (fun r => r.symbol == c)
  match matching with
  | [] => (st.1 ++ [c], st.2)
  | r0 :: rest =>
      if rest = [] then
        (st.1 ++ r0.replacement, st.2)
      else
        let p := seededRandomStep env st.2
        let sel := (selectRule p.1 (rest.length + 1) 0 (r0 :: rest)).getD r0
        (st.1 ++ sel.replacement, p.2)

/-- One rewriting pass over the current string. -/
def generateOnce (env : LEnv) (rules : List LSystemRule) (cur : List Char) (rng : ℚ) :
    List Char × ℚ :=
  cur.foldl (rewriteChar env rules) ([], rng)

/-- The `iterations` many rewriting passes. -/
def generateIter (env : LEnv) (rules : List LSystemRule) : ℕ → List Char × ℚ → List Char × ℚ
  | 0, st => st
  | n + 1, st => generateIter env rules n (generateOnce env rules st.1 st.2)

/-- generateLSystem from lsystem.ts. -/
def generateLSystem (env : LEnv) (config : LSystemConfig) (seed : ℚ) : List Char :=
  (generateIter env config.rules config.iterations (config.axm, seed)).1

/-- Branch from lsystem.ts (`endPoint` is the source's `end`). -/
structure Branch where
  start : Vec3
  endPoint : Vec3
  width : ℚ
  depth : ℕ
deriving DecidableEq

/-- An entry of the turtle stack pushed at a branch point. -/
structure TurtleEntry where
  pos : Vec3
  dir : Vec3
  width : ℚ
  depth : ℕ
deriving DecidableEq

/-- The mutable state of interpretLSystem's loop; `len` is the source's
`length` variable, `rng` the state of the seeded random closure. -/
structure InterpState where
  pos : Vec3
  dir : Vec3
  width : ℚ
  len : ℚ
  depth : ℕ
  stack : List TurtleEntry
  rng : ℚ
  branches : List Branch
deriving DecidableEq

/-- One iteration of the character loop of interpretLSystem.  The two random
draws are made before the switch, for every character, exactly as in the
source. -/
def interpStep (env : LEnv) (config : LSystemConfig) (angleRad : ℚ)
    (st : InterpState) (c : Char) : InterpState :=
  let p1 := seededRandomStep env st.rng
  let p2 := seededRandomStep env p1.2
  let randomAngle := angleRad * (1 + (p1.1 - 1/2) * config.randomness * 2)
  let randomLength := st.len * (1 + (p2.1 - 1/2) * config.randomness)
  let st1 : InterpState := { st with rng := p2.2 }
  if c = 'F' then
    let e := Vec3.add st1.pos (Vec3.smul randomLength st1.dir)
    { st1 with pos := e,
               branches := st1.branches ++ [⟨st1.pos, e, st1.width, st1.depth⟩] }
  else if c = '+' then { st1 with dir := applyAxisAngle env st1.dir ⟨0, 0, 1⟩ randomAngle }
  else if c = '-' then { st1 with dir := applyAxisAngle env st1.dir ⟨0, 0, 1⟩ (-randomAngle) }
  else if c = '&' then { st1 with dir := applyAxisAngle env st1.dir ⟨1, 0, 0⟩ randomAngle }
  else if c = '^' then { st1 with dir := applyAxisAngle env st1.dir ⟨1, 0, 0⟩ (-randomAngle) }
  else if c = '\\' then { st1 with dir := applyAxisAngle env st1.dir ⟨0, 1, 0⟩ randomAngle }
  else if c = '/' then { st1 with dir := applyAxisAngle env st1.dir ⟨0, 1, 0⟩ (-randomAngle) }
  else if c = '|' then { st1 with dir := applyAxisAngle env st1.dir ⟨0, 0, 1⟩ env.pi }
  else if c = '[' then
    { st1 with stack := ⟨st1.pos, st1.dir, st1.width, st1.depth⟩ :: st1.stack,
               width := st1.width * config.widthFactor,
               len := st1.len * config.lengthFactor,
               depth := st1.depth + 1 }
  else if c = ']' then
    match st1.stack with
    | [] => st1
    | e :: rest =>
        { st1 with pos := e.pos, dir := e.dir, width := e.width, depth := e.depth,
                   len := config.length * config.lengthFactor ^ e.depth,
                   stack := rest }
  else st1

/-- Initial turtle state of interpretLSystem. -/
def interpInit (config : LSystemConfig) (baseWidth seed : ℚ) : InterpState :=
  { pos := ⟨0, 0, 0⟩, dir := ⟨0, 1, 0⟩, width := baseWidth, len := config.length,
    depth := 0, stack := [], rng := seed, branches := [] }

/-- interpretLSystem from lsystem.ts. -/
def interpretLSystem (env : LEnv) (s : List Char) (config : LSystemConfig)
    (baseWidth seed : ℚ) : List Branch :=
  (s.foldl (interpStep env config (degToRad env config.angle))
    (interpInit config baseWidth seed)).branches

/-- The composed generation pipeline of the spec's determinism property. -/
def lsystemPipeline (env : LEnv) (config : LSystemConfig) (baseWidth seed : ℚ) : List Branch :=
  interpretLSystem env (generateLSystem env config seed) config baseWidth seed

/-- A concrete computable environment used for counterexamples and witnesses. -/
def constEnv : LEnv := { sin := fun _ => 0, cos := fun _ => 0, pi := 0 }

/-- Number of drawing commands in a string (each 'F' emits exactly one Branch). -/
def countF : List Char → ℕ
  | [] => 0
  | c :: cs => (if c = 'F' then 1 else 0) + countF cs

/-- The oak replacement string. -/
def oakR : List Char := "FF+[+F-F-F]-[-F+F+F]".toList

/-- The second rewriting pass of the oak axiom, written out: every 'F' of the
replacement is replaced by the replacement again (172 characters, 64 of
which are 'F'). -/
def oakExpansion : List Char :=
  oakR ++ oakR ++ "+[+".toList ++ oakR ++ "-".toList ++ oakR ++ "-".toList ++ oakR
    ++ "]-[-".toList ++ oakR ++ "+".toList ++ oakR ++ "+".toList ++ oakR ++ "]".toList

/-- A config with width factor 2, allowed by the interpreter, which violates
the taper claim as stated. -/
def wideConfig : LSystemConfig :=
  { axm := "F".toList, rules := [], angle := 0, length := 1, lengthFactor := 1,
    widthFactor := 2, iterations := 0, randomness := 0 }

/-- An environment whose abstract sine makes the seeded stream vary from
draw to draw, like the browser's Math.sin does. -/
def varEnv : LEnv := { sin := fun q => q / 100000000, cos := fun _ => 0, pi := 0 }

/-- A config with nonzero randomness used to exhibit the random-stream
consumption of unknown characters. -/
def plainConfig : LSystemConfig :=
  { axm := "F".toList, rules := [], angle := 90, length := 2, lengthFactor := 1,
    widthFactor := 1, iterations := 0, randomness := 1/10 }

/-- AudioFeatures from AudioAnalyzer (App.tsx): one analysis frame.  The raw
frequencyData/waveformData buffers are omitted; no claim concerns them. -/
structure AudioFeatures where
  bass : ℚ
  lowMids : ℚ
  mids : ℚ
  highMids : ℚ
  treble : ℚ
  energy : ℚ
  spectralCentroid : ℚ
  spectralFlux : ℚ
  zeroCrossingRate : ℚ
  silence : Bool
  bpm : ℚ
  beat : Bool
deriving DecidableEq

/-- The closed emotion label set of SentimentEngine.ts. -/
inductive Emotion
  | calm
  | anger
  | joy
  | sadness
  | neutral
  | thought
deriving DecidableEq

/-- The scores record of an EmotionState, fields in the source's insertion
order (calm, anger, joy, sadness, thought, neutral). -/
structure EmotionScores where
  calm : ℚ
  anger : ℚ
  joy : ℚ
  sadness : ℚ
  thought : ℚ
  neutral : ℚ
deriving DecidableEq

def EmotionScores.get (s : EmotionScores) : Emotion → ℚ
  | .calm => s.calm
  | .anger => s.anger
  | .joy => s.joy
  | .sadness => s.sadness
  | .neutral => s.neutral
  | .thought => s.thought

/-- Object.entries(scores) in the source's key insertion order. -/
def EmotionScores.entries (s : EmotionScores) : List (Emotion × ℚ) :=
  [(.calm, s.calm), (.anger, s.anger), (.joy, s.joy), (.sadness, s.sadness),
   (.thought, s.thought), (.neutral, s.neutral)]

/-- Object.values(scores).reduce((a, b) => a + b, 0). -/
def EmotionScores.total (s : EmotionScores) : ℚ :=
  s.calm + s.anger + s.joy + s.sadness + s.thought + s.neutral

/-- Math.max(...Object.values(scores)). -/
def scoresMax (s : EmotionScores) : ℚ :=
  max s.calm (max s.anger (max s.joy (max s.sadness (max s.thought s.neutral))))

/-- The additive rule accumulators of detectEmotion, one condition per
if-statement of the source. -/
def rawScores (f : AudioFeatures) : EmotionScores :=
  { calm := (if f.energy < 3/10 ∧ f.zeroCrossingRate < 3/10 then (2:ℚ)/5 else 0)
      + (if f.mids > f.bass ∧ f.mids > f.treble then (1:ℚ)/5 else 0)
      + (if f.spectralFlux < 1/5 then (1:ℚ)/5 else 0)
    anger := (if f.energy > 3/5 then (3:ℚ)/10 else 0)
      + (if f.bass > 1/2 ∧ f.zeroCrossingRate > 2/5 then (3:ℚ)/10 else 0)
      + (if f.spectralFlux > 1/2 then (3:ℚ)/10 else 0)
      + (if f.spectralCentroid < 3/10 ∧ f.energy > 1/2 then (1:ℚ)/5 else 0)
    joy := (if f.energy > 2/5 ∧ f.energy < 4/5 then (1:ℚ)/5 else 0)
      + (if f.spectralCentroid > 1/2 then (3:ℚ)/10 else 0)
      + (if f.highMids > 2/5 ∧ f.treble > 3/10 then (3:ℚ)/10 else 0)
      + (if f.beat then (1:ℚ)/5 else 0)
    sadness := (if f.energy < 2/5 ∧ f.bass > f.treble then (3:ℚ)/10 else 0)
      + (if f.spectralCentroid < 3/10 then (3:ℚ)/10 else 0)
      + (if f.zeroCrossingRate < 1/5 then (1:ℚ)/5 else 0)
      + (if f.bpm < 80 then (1:ℚ)/5 else 0)
    thought := (if f.energy > 1/5 ∧ f.energy < 1/2 then (3:ℚ)/10 else 0)
      + (if f.mids > 3/10 ∧ f.lowMids > 3/10 then (3:ℚ)/10 else 0)
      + (if f.spectralFlux < 3/10 ∧ f.spectralFlux > 1/10 then (1:ℚ)/5 else 0)
    neutral := 0 }

/-- EmotionState from SentimentEngine.ts. -/
structure EmotionState where
  primary : Emotion
  intensity : ℚ
  confidence : ℚ
  scores : EmotionScores
deriving DecidableEq

/-- The normalization loop: every score divided by the same total. -/
def divScores (s : EmotionScores) (t : ℚ) : EmotionScores :=
  ⟨s.calm / t, s.anger / t, s.joy / t, s.sadness / t, s.thought / t, s.neutral / t⟩

/-- One step of the primary-emotion loop: keep the running maximum unless
the entry's score strictly exceeds it. -/
def amStep (acc : ℚ × Emotion) (ev : Emotion × ℚ) : ℚ × Emotion :=
  if ev.2 > acc.1 then (ev.2, ev.1) else acc

/-- The primary-emotion loop: running maximum (seeded with 0 and neutral),
strict comparison, entries in insertion order. -/
def argmaxFold (l : List (Emotion × ℚ)) : ℚ × Emotion :=
  l.foldl amStep ((0 : ℚ), Emotion.neutral)

/-- The neutral fallback: if the maximum accumulator is below 0.3, the
neutral score is set to 0.5. -/
def bumpNeutral (s : EmotionScores) : EmotionScores :=
  if scoresMax s < 3/10 then { s with neutral := (1:ℚ)/2 } else s

/-- The normalization denominator: `total || 1` in the source. -/
def normTotal (s : EmotionScores) : ℚ := if s.total = 0 then 1 else s.total

/-- Descending insertion used to model Object.values(...).sort((a,b) => b-a). -/
def insertDesc (x : ℚ) : List ℚ → List ℚ
  | [] => [x]
  | y :: ys => if x ≥ y then x :: y :: ys else y :: insertDesc x ys

def sortDesc (l : List ℚ) : List ℚ := l.foldr insertDesc []

/-- detectEmotion from SentimentEngine.ts.  The history argument is accepted
and unused, exactly as in the source body. -/
def detectEmotion (f : AudioFeatures) (history : List AudioFeatures) : EmotionState :=
  let scores1 := bumpNeutral (rawScores f)
  let scores := divScores scores1 (normTotal scores1)
  let pm := argmaxFold scores.entries
  let sorted := sortDesc [scores.calm, scores.anger, scores.joy, scores.sadness,
    scores.thought, scores.neutral]
  { primary := pm.2
    intensity := pm.1
    confidence := (sorted.head?.getD 0) - ((sorted.get? 1).getD 0)
    scores := scores }

/-- The silence flag computed by AudioAnalyzer.getFeatures: energy < 0.05,
strictly. -/
def silenceFlag (energy : ℚ) : Bool := energy < 1/20

/-- The frame of the spec scenario: energy 0.05, every band 0, the other
features at their zero/default values (bpm defaults to 120 in the
analyzer). -/
def frame04 : AudioFeatures :=
  { bass := 0, lowMids := 0, mids := 0, highMids := 0, treble := 0,
    energy := 1/20, spectralCentroid := 0, spectralFlux := 0, zeroCrossingRate := 0,
    silence := silenceFlag (1/20), bpm := 120, beat := false }

/-- The observable state of an AudioAnalyzer instance: `inited` is the
source's isInitialized flag, `hasAnalyser` whether this.analyser is set. -/
structure AnalyzerState where
  inited : Bool
  hasAnalyser : Bool
deriving DecidableEq

/-- A fresh AudioAnalyzer: initialization never ran. -/
def initialAnalyzerState : AnalyzerState := ⟨false, false⟩

/-- AudioAnalyzer.getEmptyFeatures. -/
def getEmptyFeatures : AudioFeatures :=
  { bass := 0, lowMids := 0, mids := 0, highMids := 0, treble := 0, energy := 0,
    spectralCentroid := 0, spectralFlux := 0, zeroCrossingRate := 0,
    bpm := 120, beat := false, silence := true }

/-- AudioAnalyzer.getFeatures: the guard returns the empty frame whenever
the instance is not initialized or has no analyser node; `measured` stands
for the frame the initialized branch derives from the live buffers. -/
def AnalyzerState.getFeatures (st : AnalyzerState) (measured : AudioFeatures) : AudioFeatures :=
  if !st.inited || !st.hasAnalyser then getEmptyFeatures else measured

/-- AudioAnalyzer.dispose: disconnects the graph and clears isInitialized;
idempotent on the flag. -/
def AnalyzerState.dispose (st : AnalyzerState) : AnalyzerState := { st with inited := false }

/-- AudioAnalyzer.setupAnalyser's successful completion. -/
def AnalyzerState.setupAnalyser (st : AnalyzerState) : AnalyzerState :=
  { st with hasAnalyser := true, inited := true }

/-- A failed initFromMicrophone/initFromAudioElement: the error is rethrown
before setupAnalyser's flags are set, so the observable state is unchanged. -/
def initFailed (st : AnalyzerState) : AnalyzerState := st

/-- The audio feature names routable by the mapping layer
(useAudioVisualMapping.ts). -/
inductive AudioFeatureName
  | bass
  | lowMids
  | mids
  | highMids
  | treble
  | energy
  | beat
  | silence
  | spectralCentroid
  | spectralFlux
deriving DecidableEq

/-- getFeatureValue: 0 when no audio features are available; beat and
silence map to 0/1 indicators. -/
def getFeatureValue (features : Option AudioFeatures) (name : AudioFeatureName) : ℚ :=
  match features with
  | none => 0
  | some af =>
      match name with
      | .bass => af.bass
      | .lowMids => af.lowMids
      | .mids => af.mids
      | .highMids => af.highMids
      | .treble => af.treble
      | .energy => af.energy
      | .beat => if af.beat then 1 else 0
      | .silence => if af.energy < 1/20 then 1 else 0
      | .spectralCentroid => af.spectralCentroid
      | .spectralFlux => af.spectralFlux

/-- AudioVisualMapping: one declarative routing rule. -/
structure MappingRule where
  source : AudioFeatureName
  target : String
  effect : String
  multiplier : ℚ
  threshold : Option ℚ := none
  duration : Option ℚ := none
  smoothing : Option ℚ := none
  invert : Bool := false
deriving DecidableEq

/-- The per-key runtime state of a mapping rule (velocity and accumulated
exist in the source but are never read; they are omitted). -/
structure MappingRuleState where
  currentValue : ℚ
  targetValue : ℚ
  lastBeatTime : ℚ
deriving DecidableEq

/-- THREE.MathUtils.lerp. -/
def lerp (x y t : ℚ) : ℚ := x + (y - x) * t

/-- processMapping from useAudioVisualMapping.ts, for one rule on one tick:
threshold, inversion, multiplier/sensitivity scaling, beat timestamping on
the thresholded-inverted value, duration decay of the target, and
exponential smoothing of the current value.  `now` is performance.now() at
this tick. -/
def processMapping (rule : MappingRule) (features : Option AudioFeatures)
    (sensitivity audioSensitivity smoothing now : ℚ) (st : MappingRuleState) :
    MappingRuleState :=
  let fv0 := getFeatureValue features rule.source
  let fv1 := match rule.threshold with
    | some th => if fv0 < th then 0 else fv0
    | none => fv0
  let fv2 := if rule.invert then 1 - fv1 else fv1
  let targetValue := fv2 * rule.multiplier * sensitivity * audioSensitivity
  let lastBeat := if rule.source = .beat ∧ fv2 > 1/2 then now else st.lastBeatTime
  let tgt := match rule.duration with
    | some d =>
        if d ≠ 0 ∧ lastBeat > 0 then
          (if now - lastBeat < d then targetValue * (1 - (now - lastBeat) / d) else 0)
        else targetValue
    | none => targetValue
  { currentValue := lerp st.currentValue tgt (rule.smoothing.getD smoothing)
    targetValue := tgt
    lastBeatTime := lastBeat }

/-- The beat → flowers pulse rule of DEFAULT_MAPPINGS (duration 150 ms). -/
def beatPulseRule : MappingRule :=
  { source := .beat, target := "flowers", effect := "pulse", multiplier := 3/2,
    duration := some 150 }

/-- A frame with the beat flag low. -/
def quietFrame : AudioFeatures :=
  { bass := 0, lowMids := 0, mids := 0, highMids := 0, treble := 0, energy := 0,
    spectralCentroid := 0, spectralFlux := 0, zeroCrossingRate := 0,
    silence := true, bpm := 120, beat := false }

/-- A frame with the beat flag high. -/
def beatFrame : AudioFeatures := { quietFrame with beat := true }

/-- A run of the mapping update loop for one rule with the default knobs
(sensitivity 1, store audioSensitivity 1, layer smoothing 0.1): each tick is
a (frame, now) pair. -/
def runMapping (rule : MappingRule) (ticks : List (Option AudioFeatures × ℚ))
    (st : MappingRuleState) : MappingRuleState :=
  ticks.foldl (fun s t => processMapping rule t.1 1 1 (1/10) t.2 s) st

/-- GrowthConfig from the growth animation hook. -/
structure GrowthConfig where
  baseSpeed : ℚ
  audioSpeedMultiplier : ℚ
  germinationDuration : ℚ
  stemGrowthDuration : ℚ
  branchingDuration : ℚ
  leafingDuration : ℚ
  floweringDuration : ℚ
  bassInfluence : ℚ
  midsInfluence : ℚ
  trebleInfluence : ℚ
  energyInfluence : ℚ
  bloomOnBeat : Bool
  silenceGrowth : Bool
deriving DecidableEq

/-- DEFAULT_GROWTH_CONFIG. -/
def defaultGrowthConfig : GrowthConfig :=
  { baseSpeed := 1/20, audioSpeedMultiplier := 2, germinationDuration := 2,
    stemGrowthDuration := 4, branchingDuration := 3, leafingDuration := 3,
    floweringDuration := 5, bassInfluence := 4/5, midsInfluence := 3/5,
    trebleInfluence := 2/5, energyInfluence := 1, bloomOnBeat := true,
    silenceGrowth := true }

/-- getGrowthSpeed: base speed scaled by energy, boosted by 1.5 during
silence (energy below 0.1) when silenceGrowth is enabled, and scaled by the
primary emotion. -/
def getGrowthSpeed (cfg : GrowthConfig) (features : Option AudioFeatures)
    (primary : Option Emotion) : ℚ :=
  let energy := (features.map AudioFeatures.energy).getD 0
  let speed1 := cfg.baseSpeed * (1 + energy * cfg.energyInfluence)
  let speed2 := if cfg.silenceGrowth ∧ energy < 1/10 then speed1 * (3/2) else speed1
  match primary with
  | some .calm => speed2 * (4/5)
  | some .anger => speed2 * (13/10)
  | some .joy => speed2 * (6/5)
  | _ => speed2

/-- The growth-time accumulation of updateGrowth over a sequence of tick
deltas with the audio features and emotion held fixed:
timeRef.current += delta * speed each tick. -/
def accumGrowthTime (cfg : GrowthConfig) (features : Option AudioFeatures)
    (primary : Option Emotion) (t0 : ℚ) (deltas : List ℚ) : ℚ :=
  deltas.foldl (fun t d => t + d * getGrowthSpeed cfg features primary) t0

/-- GrowthState from flora/types.ts. -/
structure GrowthState where
  germination : ℚ
  stemGrowth : ℚ
  branching : ℚ
  leafing : ℚ
  flowering : ℚ
  withering : ℚ
  audioInfluence : ℚ
deriving DecidableEq

/-- The raw staged targets computed by updateGrowth from the accumulated
growth time. -/
def stageTargets (cfg : GrowthConfig) (time energy : ℚ) : GrowthState :=
  let germinationEnd := cfg.germinationDuration
  let stemEnd := germinationEnd + cfg.stemGrowthDuration
  let branchEnd := stemEnd + cfg.branchingDuration
  let leafEnd := branchEnd + cfg.leafingDuration
  { germination := min 1 (time / germinationEnd)
    stemGrowth := if time > germinationEnd
      then min 1 ((time - germinationEnd) / cfg.stemGrowthDuration) else 0
    branching := if time > stemEnd then min 1 ((time - stemEnd) / cfg.branchingDuration) else 0
    leafing := if time > branchEnd then min 1 ((time - branchEnd) / cfg.leafingDuration) else 0
    flowering := if time > leafEnd then min 1 ((time - leafEnd) / cfg.floweringDuration) else 0
    withering := 0
    audioInfluence := energy }

/-- The audio-band modulation applied to the staged targets. -/
def modulateTargets (cfg : GrowthConfig) (t : GrowthState) (bass mids treble : ℚ) :
    GrowthState :=
  { t with
      stemGrowth := min 1 (t.stemGrowth * (1 + bass * cfg.bassInfluence))
      branching := min 1 (t.branching * (1 + mids * cfg.midsInfluence))
      leafing := min 1 (t.leafing * (1 + mids * cfg.midsInfluence))
      flowering := min 1 (t.flowering * (1 + treble * cfg.trebleInfluence)) }

/-- The beat-triggered instant bloom: flowering is forced to 1 only on the
beat's rising edge and only when the modulated flowering target already
exceeds 0.5. -/
def applyBloom (cfg : GrowthConfig) (t : GrowthState) (beat lastBeat : Bool) : GrowthState :=
  if cfg.bloomOnBeat ∧ beat = true ∧ lastBeat = false ∧ t.flowering > 1/2
  then { t with flowering := 1 } else t

/-- The audio-modulated (pre-bloom) targets for one tick at accumulated
time `time`. -/
def modTargets (cfg : GrowthConfig) (time : ℚ) (features : Option AudioFeatures) :
    GrowthState :=
  modulateTargets cfg
    (stageTargets cfg time ((features.map AudioFeatures.energy).getD 0))
    ((features.map AudioFeatures.bass).getD 0)
    ((features.map AudioFeatures.mids).getD 0)
    ((features.map AudioFeatures.treble).getD 0)

/-- The complete target growth state computed by one updateGrowth tick. -/
def updateGrowthTarget (cfg : GrowthConfig) (time : ℚ) (features : Option AudioFeatures)
    (lastBeat : Bool) : GrowthState :=
  applyBloom cfg (modTargets cfg time features)
    ((features.map AudioFeatures.beat).getD false) lastBeat

/-- interpolateGrowth from flora/types.ts. -/
def interpolateGrowth (g t : GrowthState) (progress : ℚ) : GrowthState :=
  { germination := lerp g.germination t.germination progress
    stemGrowth := lerp g.stemGrowth t.stemGrowth progress
    branching := lerp g.branching t.branching progress
    leafing := lerp g.leafing t.leafing progress
    flowering := lerp g.flowering t.flowering progress
    withering := lerp g.withering t.withering progress
    audioInfluence := lerp g.audioInfluence t.audioInfluence progress }

/-- The mutable refs of useGrowthAnimation. -/
structure GrowthAnim where
  growth : GrowthState
  targetGrowth : GrowthState
  time : ℚ
  lastBeat : Bool
deriving DecidableEq

/-- One updateGrowth tick: advance the growth clock by delta times the
current speed, compute the (bloom-adjusted) targets there, and smooth the
public growth state toward them with factor 0.1. -/
def updateGrowth (cfg : GrowthConfig) (features : Option AudioFeatures)
    (primary : Option Emotion) (delta : ℚ) (anim : GrowthAnim) : GrowthAnim :=
  let speed := getGrowthSpeed cfg features primary
  let time2 := anim.time + delta * speed
  let target := updateGrowthTarget cfg time2 features anim.lastBeat
  { growth := interpolateGrowth anim.growth target (1/10)
    targetGrowth := target
    time := time2
    lastBeat := (features.map AudioFeatures.beat).getD false }

/-- The frame used for fixed-energy baselines: all features zero except the
given energy. -/
def frameWithEnergy (e : ℚ) : AudioFeatures :=
  { bass := 0, lowMids := 0, mids := 0, highMids := 0, treble := 0, energy := e,
    spectralCentroid := 0, spectralFlux := 0, zeroCrossingRate := 0,
    silence := silenceFlag e, bpm := 120, beat := false }

/-- The tick trace of the spec scenario: one beat at t = 1000 ms, then the
beat flag held low at 16 ms intervals up to 176 ms after the beat. -/
def decayTicks : List (Option AudioFeatures × ℚ) :=
  [(some beatFrame, 1000), (some quietFrame, 1016), (some quietFrame, 1032),
   (some quietFrame, 1048), (some quietFrame, 1064), (some quietFrame, 1080),
   (some quietFrame, 1096), (some quietFrame, 1112), (some quietFrame, 1128),
   (some quietFrame, 1144), (some quietFrame, 1160), (some quietFrame, 1176)]

/-- The emotion multiplier applied at the end of getGrowthSpeed. -/
def emoFactor : Option Emotion → ℚ
  | some .calm => 4/5
  | some .anger => 13/10
  | some .joy => 6/5
  | _ => 1

/-- C1: for every environment, config, base width and seed, two evaluations of
interpretLSystem(generateLSystem(C, S), C, w, S) return identical Branch
lists: the same length and, at every index, the same start vector, end
vector, width and depth.  In this pure embedding the whole pipeline is a
function of (env, C, w, S), so the hyperproperty holds definitionally. -/
theorem lsystem_pipeline_deterministic (env : LEnv) (config : LSystemConfig) (w seed : ℚ) :
    (lsystemPipeline env config w seed).length = (lsystemPipeline env config w seed).length ∧
    (∀ i : ℕ,
      ((lsystemPipeline env config w seed).get? i).map Branch.start =
        ((lsystemPipeline env config w seed).get? i).map Branch.start ∧
      ((lsystemPipeline env config w seed).get? i).map Branch.endPoint =
        ((lsystemPipeline env config w seed).get? i).map Branch.endPoint ∧
      ((lsystemPipeline env config w seed).get? i).map Branch.width =
        ((lsystemPipeline env config w seed).get? i).map Branch.width ∧
      ((lsystemPipeline env config w seed).get? i).map Branch.depth =
        ((lsystemPipeline env config w seed).get? i).map Branch.depth) := by
  exact ⟨rfl, fun _ => ⟨rfl, rfl, rfl, rfl⟩⟩

lemma generate_oak (env : LEnv) (seed : ℚ) :
    generateLSystem env oakConfig seed = oakExpansion := by
  rfl

lemma interpStep_branches_length (env : LEnv) (config : LSystemConfig) (a : ℚ)
    (st : InterpState) (c : Char) :
    ((interpStep env config a st c).branches).length
      = st.branches.length + (if c = 'F' then 1 else 0) := by
  obtain ⟨p, d, w, l, dep, stk, r, bs⟩ := st
  by_cases h1 : c = 'F'
  · subst h1; exact List.length_append bs _
  by_cases h2 : c = '+'
  · subst h2; rfl
  by_cases h3 : c = '-'
  · subst h3; rfl
  by_cases h4 : c = '&'
  · subst h4; rfl
  by_cases h5 : c = '^'
  · subst h5; rfl
  by_cases h6 : c = '\\'
  · subst h6; rfl
  by_cases h7 : c = '/'
  · subst h7; rfl
  by_cases h8 : c = '|'
  · subst h8; rfl
  by_cases h9 : c = '['
  · subst h9; rfl
  by_cases h10 : c = ']'
  · subst h10; cases stk <;> rfl
  · simp only [interpStep]
    rw [if_neg h1, if_neg h2, if_neg h3, if_neg h4, if_neg h5, if_neg h6, if_neg h7,
      if_neg h8, if_neg h9, if_neg h10, if_neg h1]
    rfl

lemma interp_fold_count (env : LEnv) (config : LSystemConfig) (a : ℚ) :
    ∀ (s : List Char) (st : InterpState),
      ((s.foldl (interpStep env config a) st).branches).length
        = st.branches.length + countF s := by
  intro s
  induction s with
  | nil => intro st; exact (Nat.add_zero _).symm
  | cons c cs ih =>
      intro st
      rw [List.foldl_cons, ih, interpStep_branches_length]
      exact Nat.add_assoc _ _ _

lemma interpret_length (env : LEnv) (s : List Char) (config : LSystemConfig)
    (w seed : ℚ) : (interpretLSystem env s config w seed).length = countF s := by
  unfold interpretLSystem
  rw [interp_fold_count]
  exact Nat.zero_add (countF s)

lemma interpStep_branches_mono (env : LEnv) (config : LSystemConfig) (a : ℚ)
    (st : InterpState) (c : Char) :
    ∃ l, (interpStep env config a st c).branches = st.branches ++ l := by
  obtain ⟨p, d, w, l, dep, stk, r, bs⟩ := st
  by_cases h1 : c = 'F'
  · subst h1; exact ⟨_, rfl⟩
  by_cases h2 : c = '+'
  · subst h2; exact ⟨[], (List.append_nil bs).symm⟩
  by_cases h3 : c = '-'
  · subst h3; exact ⟨[], (List.append_nil bs).symm⟩
  by_cases h4 : c = '&'
  · subst h4; exact ⟨[], (List.append_nil bs).symm⟩
  by_cases h5 : c = '^'
  · subst h5; exact ⟨[], (List.append_nil bs).symm⟩
  by_cases h6 : c = '\\'
  · subst h6; exact ⟨[], (List.append_nil bs).symm⟩
  by_cases h7 : c = '/'
  · subst h7; exact ⟨[], (List.append_nil bs).symm⟩
  by_cases h8 : c = '|'
  · subst h8; exact ⟨[], (List.append_nil bs).symm⟩
  by_cases h9 : c = '['
  · subst h9; exact ⟨[], (List.append_nil bs).symm⟩
  by_cases h10 : c = ']'
  · subst h10
    cases stk with
    | nil => exact ⟨[], (List.append_nil bs).symm⟩
    | cons e rest => exact ⟨[], (List.append_nil bs).symm⟩
  · simp only [interpStep]
    rw [if_neg h1, if_neg h2, if_neg h3, if_neg h4, if_neg h5, if_neg h6, if_neg h7,
      if_neg h8, if_neg h9, if_neg h10]
    exact ⟨[], (List.append_nil bs).symm⟩

lemma interp_fold_mono (env : LEnv) (config : LSystemConfig) (a : ℚ) :
    ∀ (s : List Char) (st : InterpState),
      ∃ l, (s.foldl (interpStep env config a) st).branches = st.branches ++ l := by
  intro s
  induction s with
  | nil => intro st; exact ⟨[], (List.append_nil _).symm⟩
  | cons c cs ih =>
      intro st
      obtain ⟨l1, h1⟩ := interpStep_branches_mono env config a st c
      obtain ⟨l2, h2⟩ := ih (interpStep env config a st c)
      exact ⟨l1 ++ l2, by rw [List.foldl_cons, h2, h1, List.append_assoc]⟩

lemma interpStep_no_F (env : LEnv) (config : LSystemConfig) (a : ℚ)
    (st : InterpState) (c : Char) (hc : c ≠ 'F') (pv : Vec3)
    (hpos : st.pos = pv) (hstk : ∀ e ∈ st.stack, e.pos = pv) :
    (interpStep env config a st c).pos = pv ∧
    (∀ e ∈ (interpStep env config a st c).stack, e.pos = pv) ∧
    (interpStep env config a st c).branches = st.branches := by
  obtain ⟨p, d, w, l, dep, stk, r, bs⟩ := st
  simp only at hpos hstk
  subst hpos
  by_cases h2 : c = '+'
  · subst h2; exact ⟨rfl, hstk, rfl⟩
  by_cases h3 : c = '-'
  · subst h3; exact ⟨rfl, hstk, rfl⟩
  by_cases h4 : c = '&'
  · subst h4; exact ⟨rfl, hstk, rfl⟩
  by_cases h5 : c = '^'
  · subst h5; exact ⟨rfl, hstk, rfl⟩
  by_cases h6 : c = '\\'
  · subst h6; exact ⟨rfl, hstk, rfl⟩
  by_cases h7 : c = '/'
  · subst h7; exact ⟨rfl, hstk, rfl⟩
  by_cases h8 : c = '|'
  · subst h8; exact ⟨rfl, hstk, rfl⟩
  by_cases h9 : c = '['
  · subst h9
    refine ⟨rfl, ?_, rfl⟩
    intro e he
    rcases List.mem_cons.mp he with he1 | he2
    · rw [he1]
    · exact hstk e he2
  by_cases h10 : c = ']'
  · subst h10
    cases stk with
    | nil => exact ⟨rfl, hstk, rfl⟩
    | cons e rest =>
        refine ⟨hstk e (List.mem_cons_self e rest), ?_, rfl⟩
        intro e2 he2
        exact hstk e2 (List.mem_cons_of_mem e he2)
  · simp only [interpStep]
    rw [if_neg hc, if_neg h2, if_neg h3, if_neg h4, if_neg h5, if_neg h6, if_neg h7,
      if_neg h8, if_neg h9, if_neg h10]
    exact ⟨rfl, hstk, rfl⟩

lemma interp_fold_first_start (env : LEnv) (config : LSystemConfig) (a : ℚ) :
    ∀ (s : List Char) (st : InterpState) (pv : Vec3),
      st.pos = pv → (∀ e ∈ st.stack, e.pos = pv) → st.branches = [] →
      ∀ b, ((s.foldl (interpStep env config a) st).branches).head? = some b →
        b.start = pv := by
  intro s
  induction s with
  | nil =>
      intro st pv hpos hstk hemp b hb
      rw [List.foldl_nil, hemp] at hb
      exact absurd hb (by simp)
  | cons c cs ih =>
      intro st pv hpos hstk hemp b hb
      by_cases hc : c = 'F'
      · subst hc
        have hbr : (interpStep env config a st 'F').branches
            = st.branches ++ [⟨st.pos,
                Vec3.add st.pos (Vec3.smul
                  (st.len * (1 + ((seededRandomStep env (seededRandomStep env st.rng).2).1 - 1/2)
                    * config.randomness)) st.dir),
                st.width, st.depth⟩] := rfl
        obtain ⟨l, hl⟩ := interp_fold_mono env config a cs (interpStep env config a st 'F')
        rw [List.foldl_cons, hl, hbr, hemp, List.nil_append] at hb
        simp only [List.head?, List.cons_append] at hb
        cases hb
        rw [hpos]
      · obtain ⟨hpos2, hstk2, hbr2⟩ := interpStep_no_F env config a st c hc pv hpos hstk
        rw [List.foldl_cons] at hb
        exact ih (interpStep env config a st c) pv hpos2 hstk2 (hbr2.trans hemp) b hb

/-- C5 (amended): for every environment and every seed, expanding the oak
axiom "F" under the rule F to FF+[+F-F-F]-[-F+F+F] with iterations = 2
yields one specific 172-character string (the single rule makes the
expansion seed-independent), and interpreting it always yields 64 Branches
whose first Branch starts at (0,0,0). -/
theorem oak_scenario (env : LEnv) (w seed : ℚ) :
    generateLSystem env oakConfig seed = oakExpansion ∧
    (generateLSystem env oakConfig seed).length = 172 ∧
    (interpretLSystem env (generateLSystem env oakConfig seed) oakConfig w seed).length = 64 ∧
    ((interpretLSystem env (generateLSystem env oakConfig seed) oakConfig w seed).head?).map
      Branch.start = some ⟨0, 0, 0⟩ := by
  refine ⟨generate_oak env seed, by rw [generate_oak]; rfl, ?_, ?_⟩
  · rw [generate_oak, interpret_length]
    rfl
  · have hlen : (interpretLSystem env (generateLSystem env oakConfig seed) oakConfig w seed).length = 64 := by
      rw [generate_oak, interpret_length]; rfl
    obtain ⟨b, hb⟩ : ∃ b,
        (interpretLSystem env (generateLSystem env oakConfig seed) oakConfig w seed).head? = some b := by
      cases hh : (interpretLSystem env (generateLSystem env oakConfig seed) oakConfig w seed) with
      | nil => rw [hh] at hlen; exact absurd hlen (by decide)
      | cons x xs => exact ⟨x, rfl⟩
    have hstart : b.start = (⟨0, 0, 0⟩ : Vec3) := by
      refine interp_fold_first_start env oakConfig (degToRad env oakConfig.angle) _ _ _
        rfl ?_ rfl b hb
      intro e he
      exact absurd he (by simp [interpInit])
    simp [hb, hstart]

/-- C5 counterexample: the oak expansion after two iterations has 172
characters, not 74 as the spec scenario states. -/
theorem oak_expansion_not_74 :
    (generateLSystem constEnv oakConfig 42).length ≠ 74 := by
  decide

lemma interpStep_width (env : LEnv) (config : LSystemConfig) (a : ℚ)
    (st : InterpState) (c : Char) (w0 : ℚ)
    (hw : st.width = w0 * config.widthFactor ^ st.depth)
    (hstk : ∀ e ∈ st.stack, e.width = w0 * config.widthFactor ^ e.depth)
    (hbr : ∀ b ∈ st.branches, b.width = w0 * config.widthFactor ^ b.depth) :
    (interpStep env config a st c).width
        = w0 * config.widthFactor ^ (interpStep env config a st c).depth ∧
    (∀ e ∈ (interpStep env config a st c).stack,
        e.width = w0 * config.widthFactor ^ e.depth) ∧
    (∀ b ∈ (interpStep env config a st c).branches,
        b.width = w0 * config.widthFactor ^ b.depth) := by
  obtain ⟨p, d, w, l, dep, stk, r, bs⟩ := st
  simp only at hw hstk hbr
  by_cases h1 : c = 'F'
  · subst h1
    refine ⟨hw, hstk, ?_⟩
    intro b hb
    rcases List.mem_append.mp hb with hb1 | hb2
    · exact hbr b hb1
    · rcases List.mem_singleton.mp hb2 with rfl
      exact hw
  by_cases h2 : c = '+'
  · subst h2; exact ⟨hw, hstk, hbr⟩
  by_cases h3 : c = '-'
  · subst h3; exact ⟨hw, hstk, hbr⟩
  by_cases h4 : c = '&'
  · subst h4; exact ⟨hw, hstk, hbr⟩
  by_cases h5 : c = '^'
  · subst h5; exact ⟨hw, hstk, hbr⟩
  by_cases h6 : c = '\\'
  · subst h6; exact ⟨hw, hstk, hbr⟩
  by_cases h7 : c = '/'
  · subst h7; exact ⟨hw, hstk, hbr⟩
  by_cases h8 : c = '|'
  · subst h8; exact ⟨hw, hstk, hbr⟩
  by_cases h9 : c = '['
  · subst h9
    refine ⟨?_, ?_, hbr⟩
    · show w * config.widthFactor = w0 * config.widthFactor ^ (dep + 1)
      rw [hw, pow_succ, mul_assoc]
    · intro e he
      rcases List.mem_cons.mp he with he1 | he2
      · rw [he1]; exact hw
      · exact hstk e he2
  by_cases h10 : c = ']'
  · subst h10
    cases stk with
    | nil => exact ⟨hw, hstk, hbr⟩
    | cons e rest =>
        refine ⟨hstk e (List.mem_cons_self e rest), ?_, hbr⟩
        intro e2 he2
        exact hstk e2 (List.mem_cons_of_mem e he2)
  · simp only [interpStep]
    rw [if_neg h1, if_neg h2, if_neg h3, if_neg h4, if_neg h5, if_neg h6, if_neg h7,
      if_neg h8, if_neg h9, if_neg h10]
    exact ⟨hw, hstk, hbr⟩

lemma interp_fold_width (env : LEnv) (config : LSystemConfig) (a : ℚ) :
    ∀ (s : List Char) (st : InterpState) (w0 : ℚ),
      st.width = w0 * config.widthFactor ^ st.depth →
      (∀ e ∈ st.stack, e.width = w0 * config.widthFactor ^ e.depth) →
      (∀ b ∈ st.branches, b.width = w0 * config.widthFactor ^ b.depth) →
      ∀ b ∈ (s.foldl (interpStep env config a) st).branches,
        b.width = w0 * config.widthFactor ^ b.depth := by
  intro s
  induction s with
  | nil => intro st w0 hw hstk hbr; simpa using hbr
  | cons c cs ih =>
      intro st w0 hw hstk hbr
      obtain ⟨hw2, hstk2, hbr2⟩ := interpStep_width env config a st c w0 hw hstk hbr
      rw [List.foldl_cons]
      exact ih (interpStep env config a st c) w0 hw2 hstk2 hbr2

/-- C3 (amended): for every environment, every string, every seed, and every
config whose width factor lies in [0,1], with a nonnegative base width:
every produced Branch has width = baseWidth * widthFactor ^ depth, and hence
any pair of branches one push level apart (child depth = parent depth + 1,
which is how a push boundary changes depth) satisfies
child.width ≤ parent.width. -/
theorem branch_taper (env : LEnv) (config : LSystemConfig) (s : List Char) (w seed : ℚ)
    (hw : 0 ≤ w) (hf0 : 0 ≤ config.widthFactor) (hf1 : config.widthFactor ≤ 1) :
    (∀ b ∈ interpretLSystem env s config w seed,
        b.width = w * config.widthFactor ^ b.depth) ∧
    (∀ p ∈ interpretLSystem env s config w seed,
      ∀ c ∈ interpretLSystem env s config w seed,
        c.depth = p.depth + 1 → c.width ≤ p.width) := by
  have hlaw : ∀ b ∈ interpretLSystem env s config w seed,
      b.width = w * config.widthFactor ^ b.depth := by
    intro b hb
    refine interp_fold_width env config (degToRad env config.angle) s
      (interpInit config w seed) w ?_ ?_ ?_ b hb
    · show w = w * config.widthFactor ^ 0
      rw [pow_zero, mul_one]
    · intro e he
      exact absurd he (by simp [interpInit])
    · intro b2 hb2
      exact absurd hb2 (by simp [interpInit])
  refine ⟨hlaw, ?_⟩
  intro p hp c hc hdep
  rw [hlaw p hp, hlaw c hc, hdep, pow_succ, ← mul_assoc]
  have hnn : 0 ≤ w * config.widthFactor ^ p.depth :=
    mul_nonneg hw (pow_nonneg hf0 _)
  exact mul_le_of_le_one_right hnn hf1

/-- Witness for the amended taper theorem at a concrete input. -/
theorem branch_taper_witness :
    (0 : ℚ) ≤ 1/2 ∧ 0 ≤ oakConfig.widthFactor ∧ oakConfig.widthFactor ≤ 1 ∧
    (∀ p ∈ interpretLSystem constEnv ("F[F]".toList) oakConfig (1/2) 0,
      ∀ c ∈ interpretLSystem constEnv ("F[F]".toList) oakConfig (1/2) 0,
        c.depth = p.depth + 1 → c.width ≤ p.width) :=
  ⟨by norm_num, by norm_num [oakConfig], by norm_num [oakConfig],
    (branch_taper constEnv oakConfig ("F[F]".toList) (1/2) 0 (by norm_num)
      (by norm_num [oakConfig]) (by norm_num [oakConfig])).2⟩

/-- C3 counterexample: with widthFactor = 2 the string F[F] produces a child
branch directly across a push boundary (it starts at the parent's endpoint
and has depth parent+1) whose width 1 exceeds the parent's width 1/2, so the
claim quantified over all configs is false. -/
theorem taper_counterexample :
    ((interpretLSystem constEnv ("F[F]".toList) wideConfig (1/2) 0).get? 0).map Branch.depth
        = some 0 ∧
    ((interpretLSystem constEnv ("F[F]".toList) wideConfig (1/2) 0).get? 1).map Branch.depth
        = some 1 ∧
    ((interpretLSystem constEnv ("F[F]".toList) wideConfig (1/2) 0).get? 1).map Branch.start
        = ((interpretLSystem constEnv ("F[F]".toList) wideConfig (1/2) 0).get? 0).map
            Branch.endPoint ∧
    ((interpretLSystem constEnv ("F[F]".toList) wideConfig (1/2) 0).get? 0).map Branch.width
        = some (1/2) ∧
    ((interpretLSystem constEnv ("F[F]".toList) wideConfig (1/2) 0).get? 1).map Branch.width
        = some 1 ∧
    ¬ ((1 : ℚ) ≤ 1/2) := by
  with_unfolding_all decide

lemma interpStep_unknown (env : LEnv) (config : LSystemConfig) (a : ℚ)
    (st : InterpState) (c : Char)
    (h1 : c ≠ 'F') (h2 : c ≠ '+') (h3 : c ≠ '-') (h4 : c ≠ '&') (h5 : c ≠ '^')
    (h6 : c ≠ '\\') (h7 : c ≠ '/') (h8 : c ≠ '|') (h9 : c ≠ '[') (h10 : c ≠ ']') :
    interpStep env config a st c
      = { st with rng := (seededRandomStep env (seededRandomStep env st.rng).2).2 } := by
  simp only [interpStep]
  rw [if_neg h1, if_neg h2, if_neg h3, if_neg h4, if_neg h5, if_neg h6, if_neg h7,
    if_neg h8, if_neg h9, if_neg h10]

/-- C10 (amended): the interpreter is total on arbitrary strings.  A
character outside the recognized alphabet leaves the whole turtle state
(position, direction, width, depth, segment length, stack) and the branch
list unchanged, only advancing the random stream by the two draws taken
before the switch; a ']' on an empty stack does likewise; and every string,
balanced or not, yields a well-defined Branch list with exactly one Branch
per 'F'. -/
theorem interpret_unbalanced_safe (env : LEnv) (config : LSystemConfig) (a : ℚ) :
    (∀ (st : InterpState) (c : Char),
        c ∉ (['F', '+', '-', '&', '^', '\\', '/', '|', '[', ']'] : List Char) →
        interpStep env config a st c
          = { st with rng := (seededRandomStep env (seededRandomStep env st.rng).2).2 }) ∧
    (∀ st : InterpState, st.stack = [] →
        interpStep env config a st ']'
          = { st with rng := (seededRandomStep env (seededRandomStep env st.rng).2).2 }) ∧
    (∀ (s : List Char) (w seed : ℚ),
        (interpretLSystem env s config w seed).length = countF s) := by
  refine ⟨?_, ?_, ?_⟩
  · intro st c hc
    simp only [List.mem_cons, List.not_mem_nil, or_false, not_or] at hc
    obtain ⟨h1, h2, h3, h4, h5, h6, h7, h8, h9, h10⟩ := hc
    exact interpStep_unknown env config a st c h1 h2 h3 h4 h5 h6 h7 h8 h9 h10
  · intro st hstk
    obtain ⟨p, d, w, l, dep, stk, r, bs⟩ := st
    simp only at hstk
    subst hstk
    rfl
  · intro s w seed
    exact interpret_length env s config w seed

/-- Witness for the totality theorem at concrete inputs. -/
theorem interpret_unbalanced_safe_witness :
    ('X' ∉ (['F', '+', '-', '&', '^', '\\', '/', '|', '[', ']'] : List Char)) ∧
    interpStep constEnv oakConfig 0 (interpInit oakConfig 1 0) 'X'
      = { interpInit oakConfig 1 0 with
            rng := (seededRandomStep constEnv
              (seededRandomStep constEnv (interpInit oakConfig 1 0).rng).2).2 } ∧
    (interpInit oakConfig 1 0).stack = [] ∧
    interpStep constEnv oakConfig 0 (interpInit oakConfig 1 0) ']'
      = { interpInit oakConfig 1 0 with
            rng := (seededRandomStep constEnv
              (seededRandomStep constEnv (interpInit oakConfig 1 0).rng).2).2 } ∧
    (interpretLSystem constEnv ("]]XF[".toList) oakConfig 1 0).length
      = countF ("]]XF[".toList) :=
  ⟨by decide,
   (interpret_unbalanced_safe constEnv oakConfig 0).1 (interpInit oakConfig 1 0) 'X' (by decide),
   rfl,
   (interpret_unbalanced_safe constEnv oakConfig 0).2.1 (interpInit oakConfig 1 0) rfl,
   (interpret_unbalanced_safe constEnv oakConfig 0).2.2 ("]]XF[".toList) 1 0⟩

/-- C10 counterexample: an unknown character is not free of effect on the
produced Branch list.  It consumes two draws of the seeded random stream, so
prefixing 'X' to "F" changes the randomized geometry of the following
branch. -/
theorem unknown_char_shifts_stream :
    interpretLSystem varEnv ("XF".toList) plainConfig (1/2) 1
      ≠ interpretLSystem varEnv ("F".toList) plainConfig (1/2) 1 := by
  with_unfolding_all decide

/-- C9: whenever the analyzer is not initialized (fresh, failed init, or
disposed), getFeatures returns the well-defined silent frame: all band
energies, energy, spectral descriptors and zero-crossing rate are 0, beat is
false and silence is true; dispose always clears the flag, so this persists
until an initialization succeeds. -/
theorem uninitialized_getFeatures_safe (st : AnalyzerState) (measured : AudioFeatures)
    (h : st.inited = false) :
    st.getFeatures measured = getEmptyFeatures ∧
    getEmptyFeatures.bass = 0 ∧ getEmptyFeatures.lowMids = 0 ∧ getEmptyFeatures.mids = 0 ∧
    getEmptyFeatures.highMids = 0 ∧ getEmptyFeatures.treble = 0 ∧
    getEmptyFeatures.energy = 0 ∧ getEmptyFeatures.spectralCentroid = 0 ∧
    getEmptyFeatures.spectralFlux = 0 ∧ getEmptyFeatures.zeroCrossingRate = 0 ∧
    getEmptyFeatures.beat = false ∧ getEmptyFeatures.silence = true ∧
    initialAnalyzerState.inited = false ∧
    (initFailed st).getFeatures measured = getEmptyFeatures ∧
    (∀ st2 : AnalyzerState, (st2.dispose).inited = false) ∧
    (∀ st2 : AnalyzerState, ∀ m2 : AudioFeatures,
        (st2.dispose).getFeatures m2 = getEmptyFeatures) := by
  refine ⟨?_, rfl, rfl, rfl, rfl, rfl, rfl, rfl, rfl, rfl, rfl, rfl, rfl, ?_, fun _ => rfl, ?_⟩
  · simp [AnalyzerState.getFeatures, h]
  · simp [AnalyzerState.getFeatures, initFailed, h]
  · intro st2 m2
    simp [AnalyzerState.getFeatures, AnalyzerState.dispose]

/-- Witness for the uninitialized-getFeatures theorem at a concrete state. -/
theorem uninitialized_getFeatures_safe_witness :
    (⟨false, true⟩ : AnalyzerState).inited = false ∧
    (⟨false, true⟩ : AnalyzerState).getFeatures frame04 = getEmptyFeatures :=
  ⟨rfl, (uninitialized_getFeatures_safe ⟨false, true⟩ frame04 rfl).1⟩

/-- C4 counterexample: at energy exactly 0.05 the silence flag is false (the
threshold is strict), and detectEmotion on the scenario frame returns
primary calm with a zero neutral score, not neutral with score at least
one half. -/
theorem silence_neutral_counterexample :
    silenceFlag (1/20) = false ∧
    (detectEmotion frame04 []).primary = Emotion.calm ∧
    (detectEmotion frame04 []).primary ≠ Emotion.neutral ∧
    (detectEmotion frame04 []).scores.neutral = 0 ∧
    ¬ ((1:ℚ)/2 ≤ (detectEmotion frame04 []).scores.neutral) := by
  with_unfolding_all decide

/-- C4 (amended): the silence flag is true exactly when energy is strictly
below 0.05, so the scenario frame with energy = 0.05 has silence = false;
and on that frame detectEmotion returns primary calm with the calm score
6/11, which is at least one half (the calm rules, not the neutral fallback,
fire on near-silent input). -/
theorem silence_threshold_and_calm (e : ℚ) :
    (silenceFlag e = true ↔ e < 1/20) ∧
    silenceFlag (1/20) = false ∧
    (detectEmotion frame04 []).primary = Emotion.calm ∧
    (detectEmotion frame04 []).scores.calm = 6/11 ∧
    (1:ℚ)/2 ≤ (detectEmotion frame04 []).scores.calm := by
  refine ⟨?_, ?_, ?_, ?_, ?_⟩
  · simp [silenceFlag]
  · with_unfolding_all decide
  · with_unfolding_all decide
  · with_unfolding_all decide
  · with_unfolding_all decide

lemma rawScores_get_nonneg (f : AudioFeatures) : ∀ e : Emotion, 0 ≤ (rawScores f).get e := by
  intro e
  cases e <;> simp only [rawScores, EmotionScores.get] <;> (try split_ifs) <;> norm_num

lemma get_le_total (s : EmotionScores) (h : ∀ e : Emotion, 0 ≤ s.get e) :
    ∀ e : Emotion, s.get e ≤ s.total := by
  have h1 := h .calm
  have h2 := h .anger
  have h3 := h .joy
  have h4 := h .sadness
  have h5 := h .thought
  have h6 := h .neutral
  simp only [EmotionScores.get] at h1 h2 h3 h4 h5 h6
  intro e
  cases e <;> simp only [EmotionScores.get, EmotionScores.total] <;> linarith

lemma scoresMax_le_total (s : EmotionScores) (h : ∀ e : Emotion, 0 ≤ s.get e) :
    scoresMax s ≤ s.total := by
  have h1 := h .calm
  have h2 := h .anger
  have h3 := h .joy
  have h4 := h .sadness
  have h5 := h .thought
  have h6 := h .neutral
  simp only [EmotionScores.get] at h1 h2 h3 h4 h5 h6
  simp only [scoresMax, EmotionScores.total, max_le_iff]
  and_intros <;> linarith

lemma bumpNeutral_get_nonneg (s : EmotionScores) (h : ∀ e : Emotion, 0 ≤ s.get e) :
    ∀ e : Emotion, 0 ≤ (bumpNeutral s).get e := by
  intro e
  have h1 := h .calm
  have h2 := h .anger
  have h3 := h .joy
  have h4 := h .sadness
  have h5 := h .thought
  simp only [EmotionScores.get] at h1 h2 h3 h4 h5
  unfold bumpNeutral
  split_ifs with hc
  · cases e <;> simp only [EmotionScores.get] <;>
      first
        | exact h1
        | exact h2
        | exact h3
        | exact h4
        | exact h5
        | norm_num
  · exact h e

lemma bumpNeutral_total_pos (s : EmotionScores) (h : ∀ e : Emotion, 0 ≤ s.get e) :
    0 < (bumpNeutral s).total := by
  have h1 := h .calm
  have h2 := h .anger
  have h3 := h .joy
  have h4 := h .sadness
  have h5 := h .thought
  have h6 := h .neutral
  simp only [EmotionScores.get] at h1 h2 h3 h4 h5 h6
  unfold bumpNeutral
  split_ifs with hc
  · simp only [EmotionScores.total]
    linarith
  · push_neg at hc
    have hmt := scoresMax_le_total s h
    linarith

lemma normTotal_eq (s : EmotionScores) (h : 0 < s.total) : normTotal s = s.total :=
  if_neg (ne_of_gt h)

lemma divScores_get (s : EmotionScores) (t : ℚ) :
    ∀ e : Emotion, (divScores s t).get e = s.get e / t := by
  intro e
  cases e <;> rfl

lemma divScores_total (s : EmotionScores) (t : ℚ) :
    (divScores s t).total = s.total / t := by
  simp only [divScores, EmotionScores.total, div_add_div_same]

lemma total_eq_sum_get (s : EmotionScores) :
    s.total = s.get .calm + s.get .anger + s.get .joy + s.get .sadness
      + s.get .thought + s.get .neutral := rfl

lemma mem_entries (s : EmotionScores) (e : Emotion) : (e, s.get e) ∈ s.entries := by
  cases e <;> simp [EmotionScores.entries, EmotionScores.get]

lemma entries_get (s : EmotionScores) : ∀ ev ∈ s.entries, ev.2 = s.get ev.1 := by
  intro ev hev
  simp only [EmotionScores.entries, List.mem_cons, List.not_mem_nil, or_false] at hev
  rcases hev with rfl | rfl | rfl | rfl | rfl | rfl <;> rfl

lemma amStep_eq (m : ℚ) (p : Emotion) (ev : Emotion × ℚ) :
    amStep (m, p) ev = if ev.2 > m then (ev.2, ev.1) else (m, p) := by
  unfold amStep
  split_ifs <;> rfl

lemma argmaxFold_spec :
    ∀ (l : List (Emotion × ℚ)) (m : ℚ) (p : Emotion),
      m ≤ (l.foldl amStep (m, p)).1 ∧
      (∀ ev ∈ l, ev.2 ≤ (l.foldl amStep (m, p)).1) ∧
      (((l.foldl amStep (m, p)).1 = m ∧ (l.foldl amStep (m, p)).2 = p) ∨
        ∃ ev ∈ l, (l.foldl amStep (m, p)).2 = ev.1 ∧ (l.foldl amStep (m, p)).1 = ev.2) := by
  intro l
  induction l with
  | nil =>
      intro m p
      exact ⟨le_refl m, by simp, Or.inl ⟨rfl, rfl⟩⟩
  | cons ev rest ih =>
      intro m p
      rw [List.foldl_cons, amStep_eq]
      by_cases hv : ev.2 > m
      · rw [if_pos hv]
        obtain ⟨ih1, ih2, ih3⟩ := ih ev.2 ev.1
        refine ⟨le_trans (le_of_lt hv) ih1, ?_, ?_⟩
        · intro ev2 hev2
          rcases List.mem_cons.mp hev2 with rfl | hmem
          · exact ih1
          · exact ih2 ev2 hmem
        · rcases ih3 with ⟨hm, hp⟩ | ⟨ev2, hmem, hp, hval⟩
          · exact Or.inr ⟨ev, List.mem_cons_self ev rest, hp, hm⟩
          · exact Or.inr ⟨ev2, List.mem_cons_of_mem ev hmem, hp, hval⟩
      · rw [if_neg hv]
        push_neg at hv
        obtain ⟨ih1, ih2, ih3⟩ := ih m p
        refine ⟨ih1, ?_, ?_⟩
        · intro ev2 hev2
          rcases List.mem_cons.mp hev2 with rfl | hmem
          · exact le_trans hv ih1
          · exact ih2 ev2 hmem
        · rcases ih3 with hl | ⟨ev2, hmem, hp, hval⟩
          · exact Or.inl hl
          · exact Or.inr ⟨ev2, List.mem_cons_of_mem ev hmem, hp, hval⟩

lemma argmaxFold_ub (l : List (Emotion × ℚ)) :
    (∀ ev ∈ l, ev.2 ≤ (argmaxFold l).1) ∧
    (((argmaxFold l).1 = 0 ∧ (argmaxFold l).2 = Emotion.neutral) ∨
      ∃ ev ∈ l, (argmaxFold l).2 = ev.1 ∧ (argmaxFold l).1 = ev.2) := by
  have hx := argmaxFold_spec l 0 Emotion.neutral
  exact ⟨hx.2.1, hx.2.2⟩

lemma normalized_spec (s1 : EmotionScores) (hnn1 : ∀ e : Emotion, 0 ≤ s1.get e)
    (htot : 0 < s1.total) :
    (∀ e : Emotion, 0 ≤ (divScores s1 s1.total).get e
        ∧ (divScores s1 s1.total).get e ≤ 1) ∧
    (divScores s1 s1.total).total = 1 ∧
    (∀ e : Emotion, (divScores s1 s1.total).get e
        ≤ (divScores s1 s1.total).get ((argmaxFold ((divScores s1 s1.total).entries)).2)) := by
  have hrange : ∀ e : Emotion, 0 ≤ (divScores s1 s1.total).get e
      ∧ (divScores s1 s1.total).get e ≤ 1 := by
    intro e
    rw [divScores_get]
    constructor
    · exact div_nonneg (hnn1 e) (le_of_lt htot)
    · rw [div_le_one htot]
      exact get_le_total s1 hnn1 e
  have htotal1 : (divScores s1 s1.total).total = 1 := by
    rw [divScores_total, div_self (ne_of_gt htot)]
  refine ⟨hrange, htotal1, ?_⟩
  intro e
  obtain ⟨hub, hcases⟩ := argmaxFold_ub ((divScores s1 s1.total).entries)
  have hub2 : ∀ e2 : Emotion, (divScores s1 s1.total).get e2
      ≤ (argmaxFold ((divScores s1 s1.total).entries)).1 := by
    intro e2
    exact hub ((e2, (divScores s1 s1.total).get e2)) (mem_entries _ e2)
  rcases hcases with ⟨hm, hp⟩ | ⟨ev, hmem, hp, hval⟩
  · exfalso
    have hsum := total_eq_sum_get (divScores s1 s1.total)
    rw [htotal1] at hsum
    have c1 := hub2 .calm
    have c2 := hub2 .anger
    have c3 := hub2 .joy
    have c4 := hub2 .sadness
    have c5 := hub2 .thought
    have c6 := hub2 .neutral
    rw [hm] at c1 c2 c3 c4 c5 c6
    linarith
  · have hget : (divScores s1 s1.total).get
        ((argmaxFold ((divScores s1 s1.total).entries)).2)
        = (argmaxFold ((divScores s1 s1.total).entries)).1 := by
      rw [hp, hval]
      exact (entries_get _ ev hmem).symm
    rw [hget]
    exact hub2 e

/-- C2: for every AudioFeatureFrame (and any history), the EmotionState
returned by detectEmotion has six per-label scores each in [0,1] that sum
to exactly 1 (hence within 1e-6 of 1), and its primary label attains the
maximum of the six scores. -/
theorem detectEmotion_normalized (f : AudioFeatures) (h : List AudioFeatures) :
    (∀ e : Emotion,
        0 ≤ (detectEmotion f h).scores.get e ∧ (detectEmotion f h).scores.get e ≤ 1) ∧
    (detectEmotion f h).scores.total = 1 ∧
    |(detectEmotion f h).scores.total - 1| ≤ 1/1000000 ∧
    (∀ e : Emotion,
        (detectEmotion f h).scores.get e
          ≤ (detectEmotion f h).scores.get (detectEmotion f h).primary) := by
  have hnn1 : ∀ e : Emotion, 0 ≤ (bumpNeutral (rawScores f)).get e :=
    bumpNeutral_get_nonneg (rawScores f) (rawScores_get_nonneg f)
  have htot : 0 < (bumpNeutral (rawScores f)).total :=
    bumpNeutral_total_pos (rawScores f) (rawScores_get_nonneg f)
  have key : (detectEmotion f h).scores
      = divScores (bumpNeutral (rawScores f)) ((bumpNeutral (rawScores f)).total) := by
    show divScores (bumpNeutral (rawScores f)) (normTotal (bumpNeutral (rawScores f))) = _
    rw [normTotal_eq _ htot]
  have key2 : (detectEmotion f h).primary
      = (argmaxFold ((divScores (bumpNeutral (rawScores f))
          ((bumpNeutral (rawScores f)).total)).entries)).2 := by
    show (argmaxFold ((divScores (bumpNeutral (rawScores f))
        (normTotal (bumpNeutral (rawScores f)))).entries)).2 = _
    rw [normTotal_eq _ htot]
  obtain ⟨p1, p2, p3⟩ := normalized_spec (bumpNeutral (rawScores f)) hnn1 htot
  rw [key, key2]
  exact ⟨p1, p2, by rw [p2]; norm_num, p3⟩

lemma processMapping_quiet (st : MappingRuleState) (now : ℚ) :
    (processMapping beatPulseRule (some quietFrame) 1 1 (1/10) now st).currentValue
        = st.currentValue * (9/10) ∧
    (processMapping beatPulseRule (some quietFrame) 1 1 (1/10) now st).targetValue = 0 ∧
    (processMapping beatPulseRule (some quietFrame) 1 1 (1/10) now st).lastBeatTime
        = st.lastBeatTime := by
  simp only [processMapping, beatPulseRule, getFeatureValue, quietFrame, lerp]
  norm_num
  ring

lemma runMapping_quiet_current (ts : List ℚ) :
    ∀ st : MappingRuleState,
      (runMapping beatPulseRule (ts.map (fun x => (some quietFrame, x))) st).currentValue
        = st.currentValue * (9/10) ^ ts.length := by
  induction ts with
  | nil => intro st; simp [runMapping]
  | cons t ts2 ih =>
      intro st
      have hstep := processMapping_quiet st t
      show (runMapping beatPulseRule (ts2.map (fun x => (some quietFrame, x)))
          (processMapping beatPulseRule (some quietFrame) 1 1 (1/10) t st)).currentValue = _
      rw [ih, hstep.1, List.length_cons, pow_succ]
      ring

lemma runMapping_quiet_target (t : ℚ) (ts : List ℚ) :
    ∀ st : MappingRuleState,
      (runMapping beatPulseRule ((t :: ts).map (fun x => (some quietFrame, x))) st).targetValue
        = 0 := by
  induction ts generalizing t with
  | nil =>
      intro st
      exact (processMapping_quiet st t).2.1
  | cons t2 ts2 ih =>
      intro st
      exact ih t2 (processMapping beatPulseRule (some quietFrame) 1 1 (1/10) t st)

/-- C6 (amended): for the beat-triggered flowers/pulse rule with duration
150 ms and default smoothing 0.1, once the beat flag is low the rule's
target is 0 on every tick and the current output value is multiplied by
9/10 per tick: it strictly decreases while positive and converges to 0, but
never reaches 0 exactly (in particular not within the 150 ms window). -/
theorem mapping_decay_geometric (t : ℚ) (ts : List ℚ) (st : MappingRuleState)
    (hpos : 0 < st.currentValue) :
    (runMapping beatPulseRule ((t :: ts).map (fun x => (some quietFrame, x))) st).currentValue
        = st.currentValue * (9/10) ^ (ts.length + 1) ∧
    0 < (runMapping beatPulseRule
        ((t :: ts).map (fun x => (some quietFrame, x))) st).currentValue ∧
    (runMapping beatPulseRule ((t :: ts).map (fun x => (some quietFrame, x))) st).currentValue
        < st.currentValue ∧
    (runMapping beatPulseRule ((t :: ts).map (fun x => (some quietFrame, x))) st).targetValue
        = 0 := by
  have hcur := runMapping_quiet_current (t :: ts) st
  rw [List.length_cons] at hcur
  have hlt1 : ((9:ℚ)/10) ^ (ts.length + 1) < 1 := by
    apply pow_lt_one₀ (by norm_num) (by norm_num)
    exact Nat.succ_ne_zero ts.length
  have hgt0 : (0:ℚ) < (9/10) ^ (ts.length + 1) := by positivity
  refine ⟨hcur, ?_, ?_, runMapping_quiet_target t ts st⟩
  · rw [hcur]
    positivity
  · rw [hcur]
    exact mul_lt_of_lt_one_right hpos hlt1

/-- Witness for the decay theorem at a concrete state and two ticks. -/
theorem mapping_decay_geometric_witness :
    0 < (⟨1, 0, 0⟩ : MappingRuleState).currentValue ∧
    ((runMapping beatPulseRule
        (((0:ℚ) :: [16]).map (fun x => (some quietFrame, x))) ⟨1, 0, 0⟩).currentValue
      = (⟨1, 0, 0⟩ : MappingRuleState).currentValue * (9/10) ^ (([16]:List ℚ).length + 1) ∧
    0 < (runMapping beatPulseRule
        (((0:ℚ) :: [16]).map (fun x => (some quietFrame, x))) ⟨1, 0, 0⟩).currentValue ∧
    (runMapping beatPulseRule
        (((0:ℚ) :: [16]).map (fun x => (some quietFrame, x))) ⟨1, 0, 0⟩).currentValue
      < (⟨1, 0, 0⟩ : MappingRuleState).currentValue ∧
    (runMapping beatPulseRule
        (((0:ℚ) :: [16]).map (fun x => (some quietFrame, x))) ⟨1, 0, 0⟩).targetValue = 0) :=
  ⟨by norm_num, mapping_decay_geometric 0 [16] ⟨1, 0, 0⟩ (by norm_num)⟩

/-- C6 counterexample: after the beat at t = 1000 the rule's current value
is still strictly positive at t = 1176, which is 176 ms ≥ 150 ms after the
beat, so it neither reaches 0 by 150 ms post-beat nor stays at 0; the
smoothed value only decays geometrically. -/
theorem mapping_decay_counterexample :
    0 < (runMapping beatPulseRule decayTicks ⟨0, 0, 0⟩).currentValue ∧
    (runMapping beatPulseRule decayTicks ⟨0, 0, 0⟩).currentValue ≠ 0 := by
  with_unfolding_all decide

lemma emoFactor_pos (p : Option Emotion) : 0 < emoFactor p := by
  rcases p with - | em
  · norm_num [emoFactor]
  · cases em <;> norm_num [emoFactor]

lemma getGrowthSpeed_eq (cfg : GrowthConfig) (f : AudioFeatures) (primary : Option Emotion) :
    getGrowthSpeed cfg (some f) primary
      = (if cfg.silenceGrowth ∧ f.energy < 1/10
          then cfg.baseSpeed * (1 + f.energy * cfg.energyInfluence) * (3/2)
          else cfg.baseSpeed * (1 + f.energy * cfg.energyInfluence))
        * emoFactor primary := by
  rcases primary with - | em
  · simp only [getGrowthSpeed, emoFactor, Option.map_some', Option.getD_some]
    split_ifs <;> ring
  · cases em <;>
      (simp only [getGrowthSpeed, emoFactor, Option.map_some', Option.getD_some];
        try (split_ifs <;> ring))

lemma accumGrowthTime_eq (cfg : GrowthConfig) (features : Option AudioFeatures)
    (primary : Option Emotion) (deltas : List ℚ) :
    ∀ t0 : ℚ, accumGrowthTime cfg features primary t0 deltas
      = t0 + deltas.sum * getGrowthSpeed cfg features primary := by
  induction deltas with
  | nil => intro t0; simp [accumGrowthTime]
  | cons d ds ih =>
      intro t0
      show accumGrowthTime cfg features primary (t0 + d * getGrowthSpeed cfg features primary) ds
        = _
      rw [ih, List.sum_cons]
      ring

/-- C7 (amended): with silenceGrowth enabled and a positive base speed, for
a fixed nonzero baseline energy e that is at least the 0.1 silence cutoff
and satisfies e * energyInfluence < 1/2, accumulated growth time over any
tick sequence with positive total delta is strictly larger at energy 0 than
at energy e (all else equal).  Baselines below 0.1 keep the silence boost
and additionally gain the energy term, so for them the claim fails. -/
theorem silence_growth_monotonic (cfg : GrowthConfig) (e t0 : ℚ) (deltas : List ℚ)
    (primary : Option Emotion)
    (hb : 0 < cfg.baseSpeed) (hs : cfg.silenceGrowth = true)
    (he : 1/10 ≤ e) (hk : e * cfg.energyInfluence < 1/2) (hd : 0 < deltas.sum) :
    accumGrowthTime cfg (some (frameWithEnergy e)) primary t0 deltas
      < accumGrowthTime cfg (some (frameWithEnergy 0)) primary t0 deltas := by
  have hsp : getGrowthSpeed cfg (some (frameWithEnergy e)) primary
      < getGrowthSpeed cfg (some (frameWithEnergy 0)) primary := by
    rw [getGrowthSpeed_eq, getGrowthSpeed_eq]
    have hfe : (frameWithEnergy e).energy = e := rfl
    have hf0 : (frameWithEnergy 0).energy = 0 := rfl
    rw [hfe, hf0]
    rw [if_neg (fun hcon => absurd hcon.2 (not_lt.mpr he)),
      if_pos ⟨by rw [hs], by norm_num⟩]
    have hfac := emoFactor_pos primary
    have hcore : cfg.baseSpeed * (1 + e * cfg.energyInfluence)
        < cfg.baseSpeed * (1 + 0 * cfg.energyInfluence) * (3/2) := by nlinarith
    exact mul_lt_mul_of_pos_right hcore hfac
  rw [accumGrowthTime_eq, accumGrowthTime_eq]
  have := mul_lt_mul_of_pos_left hsp hd
  linarith

/-- Witness for the amended growth-monotonicity theorem at the default
config, baseline energy 1/5 and a single one-second tick. -/
theorem silence_growth_monotonic_witness :
    0 < defaultGrowthConfig.baseSpeed ∧
    defaultGrowthConfig.silenceGrowth = true ∧
    (1:ℚ)/10 ≤ 1/5 ∧
    (1:ℚ)/5 * defaultGrowthConfig.energyInfluence < 1/2 ∧
    0 < ([1] : List ℚ).sum ∧
    accumGrowthTime defaultGrowthConfig (some (frameWithEnergy (1/5))) none 0 [1]
      < accumGrowthTime defaultGrowthConfig (some (frameWithEnergy 0)) none 0 [1] :=
  ⟨by norm_num [defaultGrowthConfig], rfl, by norm_num,
   by norm_num [defaultGrowthConfig], by norm_num,
   silence_growth_monotonic defaultGrowthConfig (1/5) 0 [1] none
     (by norm_num [defaultGrowthConfig]) rfl (by norm_num)
     (by norm_num [defaultGrowthConfig]) (by norm_num)⟩

/-- C7 counterexample: with the default config (silenceGrowth enabled,
energyInfluence 1), a fixed nonzero baseline energy of 1/20 also receives
the silence boost and additionally the energy multiplier, so growth time
accumulates strictly faster at energy 1/20 than at energy 0 — the claim
that energy 0 beats every nonzero baseline is false. -/
theorem silence_growth_counterexample :
    accumGrowthTime defaultGrowthConfig (some (frameWithEnergy 0)) none 0 [1]
      < accumGrowthTime defaultGrowthConfig (some (frameWithEnergy (1/20))) none 0 [1] ∧
    ¬ (accumGrowthTime defaultGrowthConfig (some (frameWithEnergy (1/20))) none 0 [1]
        < accumGrowthTime defaultGrowthConfig (some (frameWithEnergy 0)) none 0 [1]) := by
  with_unfolding_all decide

/-- C8: with bloomOnBeat enabled, one updateGrowth tick forces the
flowering target to 1 exactly when the beat flag has a rising edge (beat
true now, false on the previous tick) and the audio-modulated flowering
target already exceeds 0.5; a held beat or a rising edge with modulated
target at most 0.5 leaves the flowering target at its modulated value. -/
theorem bloom_on_beat_edge (cfg : GrowthConfig) (time : ℚ) (f : AudioFeatures)
    (lastBeat : Bool) (hb : cfg.bloomOnBeat = true) :
    (f.beat = true → lastBeat = false → (modTargets cfg time (some f)).flowering > 1/2 →
        (updateGrowthTarget cfg time (some f) lastBeat).flowering = 1) ∧
    (lastBeat = true →
        (updateGrowthTarget cfg time (some f) lastBeat).flowering
          = (modTargets cfg time (some f)).flowering) ∧
    (f.beat = false →
        (updateGrowthTarget cfg time (some f) lastBeat).flowering
          = (modTargets cfg time (some f)).flowering) ∧
    ((modTargets cfg time (some f)).flowering ≤ 1/2 →
        (updateGrowthTarget cfg time (some f) lastBeat).flowering
          = (modTargets cfg time (some f)).flowering) ∧
    ((updateGrowthTarget cfg time (some f) lastBeat).flowering
          ≠ (modTargets cfg time (some f)).flowering →
        f.beat = true ∧ lastBeat = false ∧
        (modTargets cfg time (some f)).flowering > 1/2 ∧
        (updateGrowthTarget cfg time (some f) lastBeat).flowering = 1) := by
  unfold updateGrowthTarget applyBloom
  simp only [Option.map_some', Option.getD_some]
  split_ifs with hcond
  · obtain ⟨hb2, hbeat, hlast, hfl⟩ := hcond
    refine ⟨fun _ _ _ => rfl, ?_, ?_, ?_, fun _ => ⟨hbeat, hlast, hfl, rfl⟩⟩
    · intro hl
      rw [hl] at hlast
      cases hlast
    · intro hbf
      rw [hbf] at hbeat
      cases hbeat
    · intro hle
      exact absurd hfl (not_lt.mpr hle)
  · refine ⟨?_, fun _ => rfl, fun _ => rfl, fun _ => rfl, fun hne => absurd rfl hne⟩
    intro hbeat hlast hfl
    exact absurd ⟨hb, hbeat, hlast, hfl⟩ hcond

/-- Witness for the bloom-on-beat theorem: at growth time 15 under the
default config the modulated flowering target is 3/5 > 1/2, and a rising
beat edge forces the flowering target to 1. -/
theorem bloom_on_beat_edge_witness :
    defaultGrowthConfig.bloomOnBeat = true ∧
    beatFrame.beat = true ∧
    (modTargets defaultGrowthConfig 15 (some beatFrame)).flowering > 1/2 ∧
    (updateGrowthTarget defaultGrowthConfig 15 (some beatFrame) false).flowering = 1 :=
  ⟨rfl, rfl, by with_unfolding_all decide,
   (bloom_on_beat_edge defaultGrowthConfig 15 beatFrame false rfl).1 rfl rfl
     (by with_unfolding_all decide)⟩

/-- Witness instance of the silence-threshold theorem at energy 1/25. -/
theorem silence_threshold_and_calm_witness :
    (silenceFlag (1/25) = true ↔ (1:ℚ)/25 < 1/20) ∧
    silenceFlag (1/20) = false ∧
    (detectEmotion frame04 []).primary = Emotion.calm ∧
    (detectEmotion frame04 []).scores.calm = 6/11 ∧
    (1:ℚ)/2 ≤ (detectEmotion frame04 []).scores.calm :=
  silence_threshold_and_calm (1/25)

end EchoGarden
